import Mathlib

/-
Verification of the memo module (beem/memo.py): the Memo resolver class with
its encrypt and decrypt methods.  The wallet (key store) and the shared-secret
codec (beembase.memo) are external collaborators of this module and appear as
parameters; a concrete codec model is provided for the round-trip property.
-/

namespace BeemMemo

/-- Exceptions that can cross the boundary of Memo.encrypt and Memo.decrypt.
KeyNotFound and MissingKeyError come from beem.exceptions; KeyNotFound is the
distinguished key-store miss condition and is distinct from the language-level
KeyError raised by indexing a dict with a missing key.  AttributeError is the
language-level error for reading an attribute that was never set.
IntegrityError and FormatError are the codec-level failures. -/
inductive Exc where
  | keyNotFound
  | missingKeyError (named : List String)
  | keyError (key : String)
  | attributeError (attr : String)
  | integrityError
  | formatError
deriving DecidableEq, Repr

/-- Outcome of one key-store query, wallet.getPrivateKeyForPublicKey(pub):
the call either returns a value (possibly the absent value None, modelled as
none) or raises KeyNotFound. -/
inductive LookupResult where
  | ret (v : Option String)
  | keyNotFound
deriving DecidableEq, Repr

/-- The external key store, queried by public key. -/
def KeyStore : Type := String → LookupResult

/-- An account as used by memo.py: only the name and memo_key entries are
read (self.from_account is a beem Account; Account is external to this
module and behaves as a mapping holding these fields). -/
structure Account where
  name : String
  memo_key : String
deriving DecidableEq, Repr

/-- State of a Memo object after construction: the steem instance is read
only for its prefix, and from_account / to_account are attributes that are
set only when the corresponding constructor argument was truthy (none models
the attribute never having been assigned). -/
structure MemoObj where
  steemPfx : String
  from_account : Option Account
  to_account : Option Account
deriving DecidableEq, Repr

/-- Memo.__init__: self.to_account and self.from_account are assigned only
when the corresponding argument is truthy; a falsy argument (modelled as
none) leaves the attribute unset. -/
def Memo.init (from_account to_account : Option Account) (pfx : String) :
    MemoObj :=
  { steemPfx := pfx, from_account := from_account, to_account := to_account }

/-- The dict literal returned by Memo.encrypt: exactly the four keys
message, nonce, from, to.  The ciphertext type is a parameter because the
codec is external to this module. -/
structure Envelope (C : Type) where
  message : C
  nonce : String
  fromKey : String
  toKey : String
deriving DecidableEq, Repr

/-- A received memo dict as consumed by Memo.decrypt; each of the four keys
may be missing.  none in a field models the key being absent from the dict. -/
structure MemoDict (C : Type) where
  fromK : Option String
  toK : Option String
  nonceK : Option String
  messageK : Option C
deriving DecidableEq, Repr

/-- Python truthiness of a dict over the four memo keys: a dict is falsy
exactly when it is empty. -/
def MemoDict.isEmpty {C : Type} (d : MemoDict C) : Bool :=
  d.fromK.isNone && d.toK.isNone && d.nonceK.isNone && d.messageK.isNone

/-- Reading an envelope produced by encrypt back as a dict, as happens when
the encrypted memo is handed to decrypt. -/
def Envelope.toDict {C : Type} (e : Envelope C) : MemoDict C :=
  { fromK := some e.fromKey, toK := some e.toKey,
    nonceK := some e.nonce, messageK := some e.message }

/-- Python truthiness of the plaintext argument of Memo.encrypt: None or the
empty string is falsy. -/
def strFalsy : Option String → Bool
  | none => true
  | some s => s.isEmpty

/-- Python truthiness of the memo argument of Memo.decrypt: None or an empty
dict is falsy. -/
def dictFalsy {C : Type} : Option (MemoDict C) → Bool
  | none => true
  | some d => d.isEmpty

/-- Python truthiness of a key-store return value, as tested by the line
if not memo_wif: None and the empty string are falsy. -/
def wifTruthy : Option String → Bool
  | none => false
  | some s => !s.isEmpty

/-- Memo.encrypt, translated line by line.  encF is beembase.memo.encode_memo
applied to (private key wif, public key string, prefix, nonce, plaintext);
randbits64 is the value drawn by random.getrandbits(64), modelled as the raw
entropy reduced modulo 2^64.  The second component of the result is the state
of self after the call. -/
def Memo.encrypt {C : Type} (self : MemoObj) (store : KeyStore)
    (encF : String → String → String → String → String → C)
    (randbits64 : Nat) (memo : Option String) :
    Except Exc (Option (Envelope C)) × MemoObj :=
  match memo with
  | none => (Except.ok none, self)
  | some m =>
    if m.isEmpty then (Except.ok none, self)
    else
      let nonce := Nat.repr (randbits64 % 2 ^ 64)
      match self.from_account with
      | none => (Except.error (Exc.attributeError "from_account"), self)
      | some fromAcct =>
        match store fromAcct.memo_key with
        | LookupResult.keyNotFound => (Except.error Exc.keyNotFound, self)
        | LookupResult.ret wifOpt =>
          match wifOpt with
          | none =>
            (Except.error (Exc.missingKeyError [fromAcct.name]), self)
          | some wif =>
            if wif.isEmpty then
              (Except.error (Exc.missingKeyError [fromAcct.name]), self)
            else
              match self.to_account with
              | none => (Except.error (Exc.attributeError "to_account"), self)
              | some toAcct =>
                let enc := encF wif toAcct.memo_key self.steemPfx nonce m
                (Except.ok (some
                  { message := enc, nonce := nonce,
                    fromKey := fromAcct.memo_key,
                    toKey := toAcct.memo_key }), self)

/-- Embeds the result of the codec decode call into the result type of
Memo.decrypt: a successful decode returns its plaintext (a present value),
and a raised exception propagates. -/
def liftDec : Except Exc String → Except Exc (Option String)
  | Except.ok s => Except.ok (some s)
  | Except.error e => Except.error e

/-- Memo.decrypt, translated line by line.  decF is
beembase.memo.decode_memo applied to (resolved private key as returned by the
store, counterparty public key, prefix, memo.get of nonce, memo.get of
message).  The first try block indexes memo at the to key, queries the store,
then indexes memo at the from key; only a KeyNotFound raised by the store is
caught and triggers the fallback, where the roles are swapped; a second
KeyNotFound raises MissingKeyError naming both keys.  Indexing a missing key
raises KeyError, which no except clause catches. -/
def Memo.decrypt {C : Type} (self : MemoObj) (store : KeyStore)
    (decF : Option String → String → String → Option String → Option C →
      Except Exc String)
    (memo : Option (MemoDict C)) : Except Exc (Option String) × MemoObj :=
  match memo with
  | none => (Except.ok none, self)
  | some d =>
    if d.isEmpty then (Except.ok none, self)
    else
      match d.toK with
      | none => (Except.error (Exc.keyError "to"), self)
      | some toKey =>
        let resolved : Except Exc (Option String × String) :=
          match store toKey with
          | LookupResult.ret wifOpt =>
            match d.fromK with
            | none => Except.error (Exc.keyError "from")
            | some fromKey => Except.ok (wifOpt, fromKey)
          | LookupResult.keyNotFound =>
            match d.fromK with
            | none => Except.error (Exc.keyError "from")
            | some fromKey =>
              match store fromKey with
              | LookupResult.ret wifOpt => Except.ok (wifOpt, toKey)
              | LookupResult.keyNotFound =>
                Except.error (Exc.missingKeyError [toKey, fromKey])
        match resolved with
        | Except.error e => (Except.error e, self)
        | Except.ok (wifOpt, pubkey) =>
          (liftDec (decF wifOpt pubkey self.steemPfx d.nonceK d.messageK),
            self)

/-- Modelled from the spec: the Shared-Secret Codec (beembase.memo
encode_memo and decode_memo, which are not under src/).  Public keys are
serialized group elements of a Diffie-Hellman group, here the powers of
gBase modulo pMod; the shared secret is the counterparty public point raised
to the own private scalar, which is symmetric between the two parties. -/
def gBase : Nat := 5

/-- Modelled from the spec: the modulus of the Diffie-Hellman group of the
codec model. -/
def pMod : Nat := 1000003

/-- Modelled from the spec: the public point belonging to a private scalar. -/
def pubPoint (a : Nat) : Nat := gBase ^ a % pMod

/-- Modelled from the spec: ECDH shared secret from one party's private
scalar and the other party's public point. -/
def sharedSecret (a bPub : Nat) : Nat := bPub ^ a % pMod

/-- Decimal-string parser used by the codec model to read serialized keys. -/
def digitsValAux : Nat → List Char → Nat
  | acc, [] => acc
  | acc, c :: cs => digitsValAux (acc * 10 + (c.toNat - 48)) cs

/-- Reads a serialized key string as the number it denotes. -/
def parseKey (s : String) : Nat := digitsValAux 0 s.data

/-- Modelled from the spec: the key-derivation step hashing the serialized
shared secret together with the nonce; modelled as an injective pairing of
the secret with the nonce digits. -/
def kdf (secret : Nat) (nonce : String) : Nat :=
  secret * 2 ^ 64 + parseKey nonce % 2 ^ 64

/-- Modelled from the spec: a ciphertext value of the codec model, carrying
the integrity-check value derived from the plaintext and the encrypted
character codes. -/
structure CipherVal where
  check : Nat
  body : List Nat
deriving DecidableEq, Repr

/-- Integrity-check value over a list of character codes. -/
def checksumOf (codes : List Nat) : Nat := codes.sum % 65536

/-- Modelled from the spec: encode_memo of the codec model.  Derives the
symmetric key from the ECDH shared secret and the nonce and masks each
plaintext character code with it; the integrity check is computed from the
plaintext.  The prefix argument is treated as an opaque serialization tag. -/
def encode_memo (wif pub _pfx nonce plaintext : String) : CipherVal :=
  let key := kdf (sharedSecret (parseKey wif) (parseKey pub)) nonce
  { check := checksumOf (plaintext.data.map Char.toNat)
  , body := plaintext.data.map (fun c => c.toNat + key) }

/-- Modelled from the spec: decode_memo of the codec model.  Rederives the
symmetric key, unmasks the character codes, verifies the integrity check
(IntegrityError on mismatch), and fails with FormatError when key, nonce or
message is absent. -/
def decode_memo (wifOpt : Option String) (pub : String) (_pfx : String)
    (nonceOpt : Option String) (msgOpt : Option CipherVal) :
    Except Exc String :=
  match wifOpt, nonceOpt, msgOpt with
  | some wif, some nonce, some msg =>
    let key := kdf (sharedSecret (parseKey wif) (parseKey pub)) nonce
    let recovered := msg.body.map (fun c => c - key)
    if msg.check = checksumOf recovered then
      Except.ok (String.mk (recovered.map Char.ofNat))
    else Except.error Exc.integrityError
  | _, _, _ => Except.error Exc.formatError

/-- Sample sender account: private scalar 3, public point 5 ^ 3 mod pMod. -/
def acctA : Account := { name := "alice", memo_key := "125" }

/-- Sample receiver account: private scalar 4, public point 5 ^ 4 mod pMod. -/
def acctB : Account := { name := "bob", memo_key := "625" }

/-- Sample Memo object with both accounts set. -/
def memoAB : MemoObj :=
  { steemPfx := "STM", from_account := some acctA, to_account := some acctB }

/-- Sample Memo object whose to_account attribute was never assigned. -/
def memoNoTo : MemoObj :=
  { steemPfx := "STM", from_account := some acctA, to_account := none }

/-- Sample Memo object whose from_account attribute was never assigned. -/
def memoNoFrom : MemoObj :=
  { steemPfx := "STM", from_account := none, to_account := some acctB }

/-- Sample key store that raises KeyNotFound on every query. -/
def storeKNF : KeyStore := fun _ => LookupResult.keyNotFound

/-- Sample key store that returns the absent value on every query. -/
def storeNone : KeyStore := fun _ => LookupResult.ret none

/-- Sample key store that returns a fixed key on every query. -/
def storeRetW : KeyStore := fun _ => LookupResult.ret (some "w")

/-- Sample key store holding only the sender's private key. -/
def storeEnc0 : KeyStore := fun k =>
  if k = "125" then LookupResult.ret (some "3") else LookupResult.keyNotFound

/-- Sample key store holding only the receiver's private key. -/
def storeDec0 : KeyStore := fun k =>
  if k = "625" then LookupResult.ret (some "4") else LookupResult.keyNotFound

/-- Sample string-valued codec encoder returning a fixed ciphertext. -/
def encStr : String → String → String → String → String → String :=
  fun _ _ _ _ _ => "ct"

/-- Sample codec decoder that always fails with IntegrityError. -/
def dec0 : Option String → String → String → Option String → Option String →
    Except Exc String :=
  fun _ _ _ _ _ => Except.error Exc.integrityError

/-- Sample received dict with both key fields present. -/
def dictTF : MemoDict String :=
  { fromK := some "F", toK := some "T", nonceK := none, messageK := none }

/-- Sample non-empty received dict in which both key fields are missing. -/
def dictMsgOnly : MemoDict String :=
  { fromK := none, toK := none, nonceK := none, messageK := some "x" }

/-- Tests whether a result of Memo.encrypt is a raised MissingKeyError. -/
def isMissingKey {C : Type} : Except Exc (Option (Envelope C)) → Bool
  | Except.error (Exc.missingKeyError _) => true
  | _ => false

theorem sharedSecret_pub_comm (a b : Nat) :
    sharedSecret a (pubPoint b) = sharedSecret b (pubPoint a) := by
  unfold sharedSecret pubPoint
  conv_lhs => rw [← Nat.pow_mod, ← pow_mul, Nat.mul_comm]
  conv_rhs => rw [← Nat.pow_mod, ← pow_mul]

theorem decode_encode (wif1 pub1 wif2 pub2 pfx1 pfx2 nonce pt : String)
    (hkey : sharedSecret (parseKey wif2) (parseKey pub2) =
      sharedSecret (parseKey wif1) (parseKey pub1)) :
    decode_memo (some wif2) pub2 pfx2 (some nonce)
      (some (encode_memo wif1 pub1 pfx1 nonce pt)) = Except.ok pt := by
  unfold decode_memo encode_memo
  dsimp only
  rw [hkey]
  have hrec : (pt.data.map (fun c =>
      c.toNat + kdf (sharedSecret (parseKey wif1) (parseKey pub1)) nonce)).map
      (fun c => c - kdf (sharedSecret (parseKey wif1) (parseKey pub1)) nonce)
      = pt.data.map Char.toNat := by
    rw [List.map_map]
    apply List.map_congr_left
    intro c _
    simp [Nat.add_sub_cancel]
  simp only [hrec, if_true]
  rw [List.map_map]
  have hid : (Char.ofNat ∘ Char.toNat) = id := by
    funext c
    simp [Char.ofNat_toNat]
  rw [hid, List.map_id]

theorem encrypt_ok {C : Type} (m : MemoObj) (store : KeyStore)
    (encF : String → String → String → String → String → C)
    (rand : Nat) (pt : String) (fa ta : Account) (wif : String)
    (hfa : m.from_account = some fa) (hta : m.to_account = some ta)
    (hst : store fa.memo_key = LookupResult.ret (some wif))
    (hwif : wif.isEmpty = false) (hpt : pt.isEmpty = false) :
    Memo.encrypt m store encF rand (some pt) =
      (Except.ok (some
        { message := encF wif ta.memo_key m.steemPfx
            (Nat.repr (rand % 2 ^ 64)) pt
        , nonce := Nat.repr (rand % 2 ^ 64)
        , fromKey := fa.memo_key, toKey := ta.memo_key }), m) := by
  unfold Memo.encrypt
  rw [hfa]
  dsimp only
  rw [hpt, hst]
  dsimp only
  rw [hwif, hta]
  simp

theorem dict_nonempty_of_toK {C : Type} {d : MemoDict C} {t : String}
    (ht : d.toK = some t) : d.isEmpty = false := by
  unfold MemoDict.isEmpty
  rw [ht]
  simp

theorem decrypt_resolved_receiver {C : Type} (m : MemoObj) (store : KeyStore)
    (decF : Option String → String → String → Option String → Option C →
      Except Exc String)
    (d : MemoDict C) (t f : String) (w : Option String)
    (ht : d.toK = some t) (hf : d.fromK = some f)
    (hst : store t = LookupResult.ret w) :
    Memo.decrypt m store decF (some d) =
      (liftDec (decF w f m.steemPfx d.nonceK d.messageK), m) := by
  simp [Memo.decrypt, dict_nonempty_of_toK ht, ht, hst, hf]

theorem decrypt_resolved_sender {C : Type} (m : MemoObj) (store : KeyStore)
    (decF : Option String → String → String → Option String → Option C →
      Except Exc String)
    (d : MemoDict C) (t f : String) (w : Option String)
    (ht : d.toK = some t) (hf : d.fromK = some f)
    (hst : store t = LookupResult.keyNotFound)
    (hsf : store f = LookupResult.ret w) :
    Memo.decrypt m store decF (some d) =
      (liftDec (decF w t m.steemPfx d.nonceK d.messageK), m) := by
  simp [Memo.decrypt, dict_nonempty_of_toK ht, ht, hst, hf, hsf]

theorem decrypt_both_missing {C : Type} (m : MemoObj) (store : KeyStore)
    (decF : Option String → String → String → Option String → Option C →
      Except Exc String)
    (d : MemoDict C) (t f : String)
    (ht : d.toK = some t) (hf : d.fromK = some f)
    (hst : store t = LookupResult.keyNotFound)
    (hsf : store f = LookupResult.keyNotFound) :
    Memo.decrypt m store decF (some d) =
      (Except.error (Exc.missingKeyError [t, f]), m) := by
  simp [Memo.decrypt, dict_nonempty_of_toK ht, ht, hst, hf, hsf]

/-- C5: Memo.encrypt on an absent or empty plaintext and Memo.decrypt on an
absent or empty envelope return the absent value, not an error; the result is
the same for every key store, codec and entropy value, so neither call
queries the key store, draws a nonce, or invokes the codec. -/
theorem C5_absent_input_identity {C : Type} (m : MemoObj)
    (storeE storeD : KeyStore)
    (encF : String → String → String → String → String → C)
    (decF : Option String → String → String → Option String → Option C →
      Except Exc String)
    (rand : Nat) (ptOpt : Option String) (dOpt : Option (MemoDict C))
    (hpt : strFalsy ptOpt = true) (hd : dictFalsy dOpt = true) :
    Memo.encrypt m storeE encF rand ptOpt = (Except.ok none, m)
    ∧ Memo.decrypt m storeD decF dOpt = (Except.ok none, m) := by
  constructor
  · cases ptOpt with
    | none => rfl
    | some s =>
      simp only [strFalsy] at hpt
      simp [Memo.encrypt, hpt]
  · cases dOpt with
    | none => rfl
    | some d =>
      simp only [dictFalsy] at hd
      simp [Memo.decrypt, hd]

/-- Witness for C5 at the empty plaintext and the absent envelope. -/
theorem C5_witness :
    Memo.encrypt memoAB storeKNF encStr 7 (some "") =
      (Except.ok none, memoAB)
    ∧ Memo.decrypt memoAB storeKNF dec0 none = (Except.ok none, memoAB) :=
  C5_absent_input_identity memoAB storeKNF storeKNF encStr dec0 7 (some "")
    none rfl rfl

/-- C8: Memo.encrypt and Memo.decrypt leave the state of the Memo object
unchanged on every input, whether they succeed, return the absent value, or
raise; the key store appears only as a queried function. -/
theorem C8_state_unchanged {C : Type} (m : MemoObj) (storeE storeD : KeyStore)
    (encF : String → String → String → String → String → C)
    (decF : Option String → String → String → Option String → Option C →
      Except Exc String)
    (rand : Nat) (ptOpt : Option String) (dOpt : Option (MemoDict C)) :
    (Memo.encrypt m storeE encF rand ptOpt).2 = m
    ∧ (Memo.decrypt m storeD decF dOpt).2 = m := by
  constructor
  · unfold Memo.encrypt
    rcases ptOpt with _ | pt
    · rfl
    · repeat' split
      all_goals rfl
  · unfold Memo.decrypt
    rcases dOpt with _ | d
    · rfl
    · repeat' split
      all_goals rfl

/-- C4: in Memo.decrypt, once a private key has been resolved for either
role, a failure raised by the codec decode step propagates to the caller
unchanged; the role fallback is driven only by KeyNotFound during lookup. -/
theorem C4_decode_failure_propagates {C : Type} (m : MemoObj)
    (store : KeyStore)
    (decF : Option String → String → String → Option String → Option C →
      Except Exc String)
    (d : MemoDict C) (t f : String) (e : Exc)
    (ht : d.toK = some t) (hf : d.fromK = some f) :
    (∀ w, store t = LookupResult.ret w →
      decF w f m.steemPfx d.nonceK d.messageK = Except.error e →
      Memo.decrypt m store decF (some d) = (Except.error e, m))
    ∧ (∀ w, store t = LookupResult.keyNotFound →
      store f = LookupResult.ret w →
      decF w t m.steemPfx d.nonceK d.messageK = Except.error e →
      Memo.decrypt m store decF (some d) = (Except.error e, m)) := by
  constructor
  · intro w hw hdec
    rw [decrypt_resolved_receiver m store decF d t f w ht hf hw, hdec]
    rfl
  · intro w h1 h2 hdec
    rw [decrypt_resolved_sender m store decF d t f w ht hf h1 h2, hdec]
    rfl

/-- Witness for C4: an IntegrityError raised by the codec surfaces as is. -/
theorem C4_witness :
    Memo.decrypt memoAB storeRetW dec0 (some dictTF) =
      (Except.error Exc.integrityError, memoAB) :=
  (C4_decode_failure_propagates memoAB storeRetW dec0 dictTF "T" "F"
    Exc.integrityError rfl rfl).1 (some "w") rfl rfl

/-- C6: on every successful call, Memo.encrypt returns a dict with exactly
the four keys message, nonce, from and to, where from and to are the two
accounts' public memo keys, nonce is the freshly generated nonce string that
is also passed to the codec, and message is the codec output for the
sender's private key, the receiver's public key, the nonce and the
plaintext. -/
theorem C6_envelope_contents {C : Type} (m : MemoObj) (store : KeyStore)
    (encF : String → String → String → String → String → C)
    (rand : Nat) (pt : String) (fa ta : Account) (wif : String)
    (hfa : m.from_account = some fa) (hta : m.to_account = some ta)
    (hst : store fa.memo_key = LookupResult.ret (some wif))
    (hwif : wif.isEmpty = false) (hpt : pt.isEmpty = false) :
    Memo.encrypt m store encF rand (some pt) =
      (Except.ok (some (Envelope.mk
        (encF wif ta.memo_key m.steemPfx (Nat.repr (rand % 2 ^ 64)) pt)
        (Nat.repr (rand % 2 ^ 64)) fa.memo_key ta.memo_key)), m) :=
  encrypt_ok m store encF rand pt fa ta wif hfa hta hst hwif hpt

/-- Witness for C6 at concrete accounts, key store and plaintext. -/
theorem C6_witness :
    Memo.encrypt memoAB storeEnc0 encStr 7 (some "hi") =
      (Except.ok (some (Envelope.mk "ct" "7" "125" "625")), memoAB) :=
  C6_envelope_contents memoAB storeEnc0 encStr 7 "hi" acctA acctB "3"
    rfl rfl rfl rfl rfl

/-- C3 counterexample: a key store that signals its miss with the
distinguished KeyNotFound condition makes Memo.encrypt propagate
KeyNotFound; no MissingKeyError is raised. -/
theorem C3_counterexample :
    (Memo.encrypt memoAB storeKNF encStr 7 (some "hi")).1 =
      Except.error Exc.keyNotFound
    ∧ isMissingKey (Memo.encrypt memoAB storeKNF encStr 7 (some "hi")).1 =
      false :=
  ⟨rfl, rfl⟩

/-- C3 (amended): for a non-empty plaintext, Memo.encrypt raises
MissingKeyError (naming the sender account) exactly when the key-store
lookup returns a falsy value; a KeyNotFound raised by the key store
propagates unchanged instead of becoming MissingKeyError. -/
theorem C3_amended_missing_key {C : Type} (m : MemoObj) (store : KeyStore)
    (encF : String → String → String → String → String → C)
    (rand : Nat) (pt : String) (fa : Account)
    (hfa : m.from_account = some fa) (hpt : pt.isEmpty = false) :
    (store fa.memo_key = LookupResult.keyNotFound →
      (Memo.encrypt m store encF rand (some pt)).1 =
        Except.error Exc.keyNotFound)
    ∧ (∀ w, store fa.memo_key = LookupResult.ret w → wifTruthy w = false →
      (Memo.encrypt m store encF rand (some pt)).1 =
        Except.error (Exc.missingKeyError [fa.name])) := by
  constructor
  · intro hkn
    simp [Memo.encrypt, hpt, hfa, hkn]
  · intro w hw hwt
    cases w with
    | none => simp [Memo.encrypt, hpt, hfa, hw]
    | some s =>
      simp only [wifTruthy, Bool.not_eq_false'] at hwt
      simp [Memo.encrypt, hpt, hfa, hw, hwt]

/-- Witness for the amended C3: the falsy-return branch raises
MissingKeyError naming the sender account. -/
theorem C3_amended_witness :
    (Memo.encrypt memoAB storeNone encStr 7 (some "hi")).1 =
      Except.error (Exc.missingKeyError ["alice"]) :=
  (C3_amended_missing_key memoAB storeNone encStr 7 "hi" acctA rfl rfl).2
    none rfl rfl

/-- C1: for every non-absent envelope carrying its two key fields,
Memo.decrypt first looks up a private key for the to key, treating the from
key as the counterparty public key; exactly when that lookup raises
KeyNotFound it looks up the from key, treating the to key as the
counterparty public key; and it raises MissingKeyError naming both keys if
and only if both lookups raise KeyNotFound (assuming, as the codec
guarantees, that the decode step itself never raises MissingKeyError). -/
theorem C1_role_resolution_order {C : Type} (m : MemoObj) (store : KeyStore)
    (decF : Option String → String → String → Option String → Option C →
      Except Exc String)
    (d : MemoDict C) (t f : String)
    (ht : d.toK = some t) (hf : d.fromK = some f)
    (hdec : ∀ w p n ms l, decF w p m.steemPfx n ms ≠
      Except.error (Exc.missingKeyError l)) :
    (∀ w, store t = LookupResult.ret w →
      Memo.decrypt m store decF (some d) =
        (liftDec (decF w f m.steemPfx d.nonceK d.messageK), m))
    ∧ (∀ w, store t = LookupResult.keyNotFound →
      store f = LookupResult.ret w →
      Memo.decrypt m store decF (some d) =
        (liftDec (decF w t m.steemPfx d.nonceK d.messageK), m))
    ∧ ((Memo.decrypt m store decF (some d)).1 =
        Except.error (Exc.missingKeyError [t, f])
      ↔ store t = LookupResult.keyNotFound
        ∧ store f = LookupResult.keyNotFound) := by
  refine ⟨fun w hw => decrypt_resolved_receiver m store decF d t f w ht hf hw,
    fun w h1 h2 => decrypt_resolved_sender m store decF d t f w ht hf h1 h2,
    ?_, ?_⟩
  · intro hres
    cases hcase1 : store t with
    | ret w =>
      rw [decrypt_resolved_receiver m store decF d t f w ht hf hcase1]
        at hres
      exfalso
      cases hdecF : decF w f m.steemPfx d.nonceK d.messageK with
      | ok s => rw [hdecF] at hres; simp [liftDec] at hres
      | error e =>
        rw [hdecF] at hres
        simp only [liftDec, Except.error.injEq] at hres
        rw [hres] at hdecF
        exact hdec w f d.nonceK d.messageK [t, f] hdecF
    | keyNotFound =>
      cases hcase2 : store f with
      | ret w =>
        rw [decrypt_resolved_sender m store decF d t f w ht hf hcase1
          hcase2] at hres
        exfalso
        cases hdecF : decF w t m.steemPfx d.nonceK d.messageK with
        | ok s => rw [hdecF] at hres; simp [liftDec] at hres
        | error e =>
          rw [hdecF] at hres
          simp only [liftDec, Except.error.injEq] at hres
          rw [hres] at hdecF
          exact hdec w t d.nonceK d.messageK [t, f] hdecF
      | keyNotFound => exact ⟨rfl, rfl⟩
  · rintro ⟨h1, h2⟩
    rw [decrypt_both_missing m store decF d t f ht hf h1 h2]

/-- Witness for C1: with neither key available both lookups raise
KeyNotFound, and decrypt raises MissingKeyError naming both keys. -/
theorem C1_witness :
    (Memo.decrypt memoAB storeKNF dec0 (some dictTF)).1 =
      Except.error (Exc.missingKeyError ["T", "F"]) :=
  (C1_role_resolution_order memoAB storeKNF dec0 dictTF "T" "F" rfl rfl
    (fun w p n ms l h => by simp [dec0] at h)).2.2.mpr ⟨rfl, rfl⟩

/-- C9: Memo.decrypt indexes the to and from keys directly, so a non-empty
envelope missing the to key raises KeyError on to, and one missing the from
key raises KeyError on from; the nonce and message keys are read with get,
so when missing they reach the codec as the absent value instead of being
rejected by the resolver. -/
theorem C9_dict_field_access {C : Type} (m : MemoObj) (store : KeyStore)
    (decF : Option String → String → String → Option String → Option C →
      Except Exc String)
    (d : MemoDict C) (hne : d.isEmpty = false) :
    (d.toK = none → Memo.decrypt m store decF (some d) =
      (Except.error (Exc.keyError "to"), m))
    ∧ (∀ t, d.toK = some t → d.fromK = none →
      Memo.decrypt m store decF (some d) =
        (Except.error (Exc.keyError "from"), m))
    ∧ (∀ t f w, d.toK = some t → d.fromK = some f →
      store t = LookupResult.ret w →
      Memo.decrypt m store decF (some d) =
        (liftDec (decF w f m.steemPfx d.nonceK d.messageK), m)) := by
  refine ⟨?_, ?_,
    fun t f w ht hf hw =>
      decrypt_resolved_receiver m store decF d t f w ht hf hw⟩
  · intro ht
    simp [Memo.decrypt, hne, ht]
  · intro t ht hfn
    cases hcase : store t with
    | ret w => simp [Memo.decrypt, hne, ht, hfn, hcase]
    | keyNotFound => simp [Memo.decrypt, hne, ht, hfn, hcase]

/-- Witness for C9: a non-empty dict without a to key raises KeyError. -/
theorem C9_witness :
    Memo.decrypt memoAB storeKNF dec0 (some dictMsgOnly) =
      (Except.error (Exc.keyError "to"), memoAB) :=
  (C9_dict_field_access memoAB storeKNF dec0 dictMsgOnly rfl).1 rfl

/-- C10 counterexample: on a Memo built without to_account, encrypt of a
non-empty plaintext raises MissingKeyError, not AttributeError, when the
sender-key lookup returns the absent value, because the lookup precedes the
to_account access. -/
theorem C10_counterexample :
    (Memo.encrypt memoNoTo storeNone encStr 7 (some "hi")).1 =
      Except.error (Exc.missingKeyError ["alice"]) := rfl

/-- C10 (amended): Memo.__init__ assigns from_account and to_account only
for truthy constructor arguments; encrypt of a non-empty plaintext on a Memo
without from_account always raises AttributeError, and on a Memo without
to_account it raises AttributeError provided the sender-key lookup returned
a truthy key (otherwise the lookup outcome, such as MissingKeyError, is
raised first, since the lookup precedes the to_account access). -/
theorem C10_amended_attribute_access {C : Type}
    (f t : Option Account) (pfx : String) (m : MemoObj) (store : KeyStore)
    (encF : String → String → String → String → String → C)
    (rand : Nat) (pt : String) (hpt : pt.isEmpty = false) :
    ((Memo.init f t pfx).from_account = f
      ∧ (Memo.init f t pfx).to_account = t)
    ∧ (m.from_account = none →
      (Memo.encrypt m store encF rand (some pt)).1 =
        Except.error (Exc.attributeError "from_account"))
    ∧ (∀ fa wif, m.from_account = some fa → m.to_account = none →
      store fa.memo_key = LookupResult.ret (some wif) →
      wif.isEmpty = false →
      (Memo.encrypt m store encF rand (some pt)).1 =
        Except.error (Exc.attributeError "to_account")) := by
  refine ⟨⟨rfl, rfl⟩, ?_, ?_⟩
  · intro hfa
    simp [Memo.encrypt, hpt, hfa]
  · intro fa wif hfa hta hw hwif
    simp [Memo.encrypt, hpt, hfa, hta, hw, hwif]

/-- Witness for the amended C10: a Memo without from_account raises
AttributeError on from_account. -/
theorem C10_amended_witness :
    (Memo.encrypt memoNoFrom storeKNF encStr 7 (some "hi")).1 =
      Except.error (Exc.attributeError "from_account") :=
  (C10_amended_attribute_access (some acctA) (some acctB) "STM" memoNoFrom
    storeKNF encStr 7 "hi" rfl).2.1 rfl

/-- C7: the nonce of every envelope successfully produced by Memo.encrypt
is the decimal-string representation of a non-negative integer below 2 to
the 64, namely the value drawn from the entropy source for this call. -/
theorem C7_nonce_is_64bit_decimal {C : Type} (m : MemoObj) (store : KeyStore)
    (encF : String → String → String → String → String → C)
    (rand : Nat) (ptOpt : Option String) (env : Envelope C)
    (hok : (Memo.encrypt m store encF rand ptOpt).1 = Except.ok (some env)) :
    ∃ n : Nat, n < 2 ^ 64 ∧ env.nonce = Nat.repr n := by
  refine ⟨rand % 2 ^ 64, Nat.mod_lt _ (by norm_num), ?_⟩
  rcases ptOpt with _ | pt
  · exact absurd hok (by simp [Memo.encrypt])
  · unfold Memo.encrypt at hok
    repeat' split at hok
    all_goals simp_all
    subst hok
    rfl

/-- Witness for C7 at a successful concrete encrypt call. -/
theorem C7_witness :
    ∃ n : Nat, n < 2 ^ 64
      ∧ (Envelope.mk "ct" "7" "125" "625").nonce = Nat.repr n :=
  C7_nonce_is_64bit_decimal memoAB storeEnc0 encStr 7 (some "hi")
    (Envelope.mk "ct" "7" "125" "625") rfl

/-- C2: round trip through the envelope: with valid sender and receiver key
pairs whose public halves the two accounts declare, a successful encrypt of
a non-empty plaintext followed by decrypt of the produced envelope returns
exactly the plaintext, whether the key store of the decrypting side holds
the receiver's private key or only the sender's private key. -/
theorem C2_roundtrip (m : MemoObj) (fa ta : Account) (sk rk : Nat)
    (skWif rkWif : String) (storeE storeD : KeyStore) (rand : Nat)
    (pt : String)
    (hfa : m.from_account = some fa) (hta : m.to_account = some ta)
    (hskw : parseKey skWif = sk)
    (hfak : parseKey fa.memo_key = pubPoint sk)
    (hrkw : parseKey rkWif = rk)
    (htak : parseKey ta.memo_key = pubPoint rk)
    (hstE : storeE fa.memo_key = LookupResult.ret (some skWif))
    (hwif : skWif.isEmpty = false) (hpt : pt.isEmpty = false)
    (hroles : storeD ta.memo_key = LookupResult.ret (some rkWif)
      ∨ (storeD ta.memo_key = LookupResult.keyNotFound
        ∧ storeD fa.memo_key = LookupResult.ret (some skWif))) :
    ∃ env : Envelope CipherVal,
      Memo.encrypt m storeE encode_memo rand (some pt) =
        (Except.ok (some env), m)
      ∧ Memo.decrypt m storeD decode_memo (some env.toDict) =
        (Except.ok (some pt), m) := by
  refine ⟨Envelope.mk
      (encode_memo skWif ta.memo_key m.steemPfx
        (Nat.repr (rand % 2 ^ 64)) pt)
      (Nat.repr (rand % 2 ^ 64)) fa.memo_key ta.memo_key,
    encrypt_ok m storeE encode_memo rand pt fa ta skWif hfa hta hstE hwif
      hpt, ?_⟩
  rcases hroles with hrec | ⟨hkn, hsend⟩
  · rw [decrypt_resolved_receiver m storeD decode_memo _ ta.memo_key
      fa.memo_key (some rkWif) rfl rfl hrec]
    have hkey : sharedSecret (parseKey rkWif) (parseKey fa.memo_key) =
        sharedSecret (parseKey skWif) (parseKey ta.memo_key) := by
      rw [hskw, hfak, hrkw, htak]
      exact sharedSecret_pub_comm rk sk
    have hdec := decode_encode skWif ta.memo_key rkWif fa.memo_key
      m.steemPfx m.steemPfx (Nat.repr (rand % 2 ^ 64)) pt hkey
    simp only [Envelope.toDict]
    rw [hdec]
    rfl
  · rw [decrypt_resolved_sender m storeD decode_memo _ ta.memo_key
      fa.memo_key (some skWif) rfl rfl hkn hsend]
    have hdec := decode_encode skWif ta.memo_key skWif ta.memo_key
      m.steemPfx m.steemPfx (Nat.repr (rand % 2 ^ 64)) pt rfl
    simp only [Envelope.toDict]
    rw [hdec]
    rfl

/-- Witness for C2 with the scalars 3 and 4, the plaintext foobar and the
nonce of the documentation example, decrypting as the receiver. -/
theorem C2_witness :
    ∃ env : Envelope CipherVal,
      Memo.encrypt memoAB storeEnc0 encode_memo 17329630356955254641
        (some "foobar") = (Except.ok (some env), memoAB)
      ∧ Memo.decrypt memoAB storeDec0 decode_memo (some env.toDict) =
        (Except.ok (some "foobar"), memoAB) :=
  C2_roundtrip memoAB acctA acctB 3 4 "3" "4" storeEnc0 storeDec0
    17329630356955254641 "foobar" rfl rfl (by decide) (by decide)
    (by decide) (by decide) rfl rfl rfl (Or.inl rfl)

end BeemMemo
